import Mathlib

/-!
Shallow embedding of the linode fleet-scaling tool (src/src/lib.rs,
src/src/main.rs, src/src/regions.rs).

The reconciliation core is embedded as executable Lean functions; the
provider (Linode REST API) is modelled as an explicit state (`World`)
that the scale operations read and transform.  Rust indexing that can
panic is modelled with `Except String`; machine-integer parsing keeps
the explicit range checks of Rust's `FromStr` implementations.
-/

/-- models the constant A_RECORD = "A" in src/lib.rs. -/
def A_RECORD : String := "A"

/-- models the constant LOCALHOST = "127.0.0.1" in src/lib.rs, the "down" sentinel target. -/
def LOCALHOST : String := "127.0.0.1"

/-- Char-list test that the first list is a leading segment of the second. -/
def listLeadsWith : List Char → List Char → Bool
  | [], _ => true
  | _ :: _, [] => false
  | a :: as, b :: bs => a == b && listLeadsWith as bs

/-- models Rust `s.starts_with(pat)` on UTF-8 free ASCII names. -/
def strStartsWith (s pat : String) : Bool := listLeadsWith pat.data s.data

/-- Accumulator splitter over a char list; keeps empty pieces, like Rust `str::split(char)`. -/
def splitCharAux (sep : Char) : List Char → List Char → List (List Char)
  | [], acc => [acc.reverse]
  | c :: cs, acc =>
    if c == sep then acc.reverse :: splitCharAux sep cs []
    else splitCharAux sep cs (c :: acc)

/-- models Rust `s.split(sep).collect::<Vec<&str>>()`. -/
def splitStr (sep : Char) (s : String) : List String :=
  (splitCharAux sep s.data []).map (fun cs => String.mk cs)

/-- Digit run to a number: none on an empty run or a non-digit; the digit phase of Rust integer FromStr. -/
def digitsToNat : List Char → Option Nat
  | [] => none
  | cs =>
    if cs.all (fun c => c.isDigit) then
      some (cs.foldl (fun a c => a * 10 + (c.toNat - 48)) 0)
    else none

/-- models Rust `str::parse::<u8>()`: optional leading plus sign, digits only, range 0..=255. -/
def parseU8 (s : String) : Option Nat :=
  let cs := match s.data with
    | '+' :: rest => rest
    | cs => cs
  match digitsToNat cs with
  | some v => if v ≤ 255 then some v else none
  | none => none

/-- models Rust `str::parse::<i32>()`: optional sign, digits only, i32 range. -/
def parseI32 (s : String) : Option Int :=
  match s.data with
  | '+' :: rest =>
    match digitsToNat rest with
    | some v => if v ≤ 2147483647 then some (v : Int) else none
    | none => none
  | '-' :: rest =>
    match digitsToNat rest with
    | some v => if v ≤ 2147483648 then some (-(v : Int)) else none
    | none => none
  | cs =>
    match digitsToNat cs with
    | some v => if v ≤ 2147483647 then some (v : Int) else none
    | none => none

/-- models `extract_number` in src/lib.rs: split the name on dashes and parse the final piece as i32. -/
def extract_number (input : String) : Option Int :=
  let parts := splitStr '-' input
  match parts.getLast? with
  | some last_part => parseI32 last_part
  | none => none

/-- models DomainRecord; provider metadata never read by the scaling logic
(priority, weight, port, service, protocol) is omitted. -/
structure DomainRecord where
  id : Nat
  record_type : String
  name : String
  target : String
  ttl_sec : Int
  deriving DecidableEq

/-- models Interface in src/lib.rs. -/
structure Interface where
  purpose : String
  ipam_address : Option String
  label : Option String
  deriving DecidableEq

/-- models Configuration; only the fields the scaling logic reads. -/
structure Configuration where
  id : Nat
  interfaces : List Interface
  deriving DecidableEq

/-- models LinodeInstance; only the fields the scaling logic reads. -/
structure LinodeInstance where
  id : Nat
  label : String
  instance_type : String
  ipv4 : List String
  region : String
  tags : List String
  deriving DecidableEq

/-- models get_instances_by_tag: the pure filter applied to the fetched listing,
keeping instances whose tag set contains every requested tag. -/
def get_instances_by_tag (instances : List LinodeInstance) (tags : List String) : List LinodeInstance :=
  instances.filter (fun inst => tags.all (fun t => inst.tags.contains t))

/-- One interface of scale_up_one's address scan.  The error value models the
Rust panic on `ip_parts[3]` when the address has fewer than four dot-separated
pieces; a failed u8 parse yields `ok none` (logged and skipped in the source). -/
def interfaceOctet (tag : String) (iface : Interface) : Except String (Option Nat) :=
  match iface.label with
  | some label =>
    if label = tag then
      match iface.ipam_address with
      | some ipam =>
        let parts := splitStr '/' ipam
        match parts[0]? with
        | some piece0 =>
          let ip_parts := splitStr '.' piece0
          match ip_parts[3]? with
          | some last => Except.ok (parseU8 last)
          | none => Except.error "index out of bounds: ip_parts[3]"
        | none => Except.error "index out of bounds: parts[0]"
      | none => Except.ok none
    else Except.ok none
  | none => Except.ok none

/-- Octets contributed by the interfaces of one configuration, in order. -/
def interfaceOctets (tag : String) : List Interface → Except String (List Nat)
  | [] => Except.ok []
  | iface :: rest =>
    match interfaceOctet tag iface with
    | Except.error e => Except.error e
    | Except.ok o =>
      match interfaceOctets tag rest with
      | Except.error e => Except.error e
      | Except.ok l => Except.ok (o.toList ++ l)

/-- Octets over a list of configurations (middle loop of scale_up_one). -/
def configOctets (tag : String) : List Configuration → Except String (List Nat)
  | [] => Except.ok []
  | c :: rest =>
    match interfaceOctets tag c.interfaces with
    | Except.error e => Except.error e
    | Except.ok l =>
      match configOctets tag rest with
      | Except.error e => Except.error e
      | Except.ok l2 => Except.ok (l ++ l2)

/-- models the cidr-collection loop of scale_up_one over the inventoried instances. -/
def collectCidrs (tag : String) (configsOf : Nat → List Configuration) : List LinodeInstance → Except String (List Nat)
  | [] => Except.ok []
  | inst :: rest =>
    match configOctets tag (configsOf inst.id) with
    | Except.error e => Except.error e
    | Except.ok l =>
      match collectCidrs tag configsOf rest with
      | Except.error e => Except.error e
      | Except.ok l2 => Except.ok (l ++ l2)

/-- models `if let Some(max) = cidrs.iter().max() { max + 1 } else { 1 }` in
scale_up_one; the addition is u8 arithmetic, so it wraps modulo 256 at octet
255 (release-build semantics; a debug build panics there instead). -/
def nextOctet (cidrs : List Nat) : Nat :=
  match cidrs.max? with
  | some m => (m + 1) % 256
  | none => 1

/-- Outcome of the DNS slot phase: claim an existing record or create a new one. -/
inductive DnsAction where
  | claim (id : Nat)
  | create (name target : String)
  deriving DecidableEq

/-- models the record scan loop of scale_up_one: first A record whose name
begins with the pattern and whose target is the down sentinel is claimed
(break); other matching records contribute their parseable trailing number. -/
def scanSlots (pfx : String) : List DomainRecord → List Int → Option Nat × List Int
  | [], seqs => (none, seqs)
  | r :: rest, seqs =>
    if strStartsWith r.name pfx && r.record_type == A_RECORD then
      if r.target == LOCALHOST then (some r.id, seqs)
      else
        match extract_number r.name with
        | some n => scanSlots pfx rest (seqs ++ [n])
        | none => scanSlots pfx rest seqs
    else scanSlots pfx rest seqs

/-- Two's-complement reduction into the i32 range: the release-build result of
an overflowing i32 addition (a debug build panics there instead). -/
def wrapI32 (z : Int) : Int := (z + 2147483648) % 4294967296 - 2147483648

/-- models the DNS slot decision of scale_up_one (the DnsSlotReconciler of the
spec).  `Vec::sort` (stable ascending) is modelled by insertionSort, likewise a
stable ascending sort, then reversed and its head taken, as in the source; the
increment `seqs[0] + 1` is i32 arithmetic, modelled with the explicit
two's-complement wrap. -/
def dnsReconcile (records : List DomainRecord) (pfx newTarget : String) : DnsAction :=
  match scanSlots pfx records [] with
  | (some id, _) => DnsAction.claim id
  | (none, seqs) =>
    let sorted := (List.insertionSort (fun a b => a ≤ b) seqs).reverse
    let n : Int := match sorted with
      | x :: _ => wrapI32 (x + 1)
      | [] => 1
    DnsAction.create (pfx ++ "-" ++ toString n) newTarget

/-- Provider-side state read and written by one scale operation. -/
structure World where
  instances : List LinodeInstance
  configs : Nat → List Configuration
  records : List DomainRecord

/-- models update_record_target as it acts on the provider's record set. -/
def updateTarget (records : List DomainRecord) (rid : Nat) (t : String) : List DomainRecord :=
  records.map (fun r => if r.id = rid then { r with target := t } else r)

/-- One HashMap insert of scale_down_one's loop: keyed by target, overriding
any earlier binding of the same target. -/
def insertTarget (m : String → Option Nat) (r : DomainRecord) : String → Option Nat :=
  fun k => if k = r.target then some r.id else m k

/-- models the a_records HashMap of scale_down_one: every fetched record is
inserted keyed by target, later inserts overriding earlier ones. -/
def buildTargetMap (records : List DomainRecord) : String → Option Nat :=
  records.foldl insertTarget (fun _ => none)

/-- models the matching loop of scale_down_one: first inventoried instance
whose first public address is a key of the map; `ipv4[0]` on an addressless
instance is the Rust panic, modelled as an error. -/
def findMatch (amap : String → Option Nat) : List LinodeInstance → Except String (Option (Nat × Nat))
  | [] => Except.ok none
  | inst :: rest =>
    match inst.ipv4[0]? with
    | none => Except.error "index out of bounds: ipv4[0]"
    | some ip =>
      match amap ip with
      | some rid => Except.ok (some (rid, inst.id))
      | none => findMatch amap rest

/-- models scale_down_one: repoint the matched record to the down sentinel and
destroy the matched instance; no match is a no-op. -/
def scale_down_one (w : World) (code tag : String) : Except String World :=
  let insts := get_instances_by_tag w.instances [tag, code]
  let amap := buildTargetMap w.records
  match findMatch amap insts with
  | Except.error e => Except.error e
  | Except.ok none => Except.ok w
  | Except.ok (some (rid, iid)) =>
    Except.ok { w with
      records := updateTarget w.records rid LOCALHOST,
      instances := w.instances.filter (fun i => i.id != iid) }

/-- Provider responses consumed by one scale-up: the created instance, its
configuration list, and the id the provider assigns to a created A record. -/
structure UpOracle where
  newInst : LinodeInstance
  newConfigs : List Configuration
  newRecId : Nat

/-- Interface payload written by scale_up_one (the NetworkAttach step). -/
def newInterfaces (tag : String) (cidr : Nat) : List Interface :=
  [ { purpose := "public", ipam_address := none, label := none },
    { purpose := "vlan", ipam_address := some ("10.0.0." ++ toString cidr ++ "/24"), label := some tag } ]

/-- Record set after scale_up_one's DNS phase: update the claimed slot, else
append the created A record (ttl 3600) with the provider-assigned id. -/
def upRecords (records : List DomainRecord) (pfx ip : String) (newRecId : Nat) : List DomainRecord :=
  match dnsReconcile records pfx ip with
  | DnsAction.claim rid => updateTarget records rid ip
  | DnsAction.create name target =>
    records ++ [ { id := newRecId, record_type := A_RECORD, name := name, target := target, ttl_sec := 3600 } ]

/-- Id of the DNS slot bound by a scale-up: the claimed record's id, else the
id of the record it creates. -/
def upSlotId (records : List DomainRecord) (pfx : String) (newRecId : Nat) : Nat :=
  match (scanSlots pfx records []).1 with
  | some rid => rid
  | none => newRecId

/-- models scale_up_one as a state transition: inventory, address scan,
provision (the oracle's instance appended to the listing and its configuration
list installed), NetworkAttach on the first configuration, reboot (no state),
then the DNS phase keyed by the instance's first public address. -/
def scale_up_one (w : World) (code tag : String) (o : UpOracle) : Except String World :=
  let insts := get_instances_by_tag w.instances [tag, code]
  match collectCidrs tag w.configs insts with
  | Except.error e => Except.error e
  | Except.ok cidrs =>
    let w1 : World :=
      { instances := w.instances ++ [o.newInst],
        configs := fun i => if i = o.newInst.id then o.newConfigs else w.configs i,
        records := w.records }
    match o.newConfigs[0]? with
    | none => Except.error "index out of bounds: configs[0]"
    | some cfg0 =>
      let cidr := nextOctet cidrs
      let w2 : World :=
        { w1 with configs := fun i =>
            if i = o.newInst.id then
              (w1.configs i).map (fun c =>
                if c.id = cfg0.id then { c with interfaces := newInterfaces tag cidr } else c)
            else w1.configs i }
      match o.newInst.ipv4[0]? with
      | none => Except.error "index out of bounds: ipv4[0]"
      | some ip =>
        Except.ok { w2 with records := upRecords w2.records (tag ++ "-" ++ code) ip o.newRecId }

/-- models RegionInfo in src/regions.rs. -/
structure RegionInfo where
  code : String
  region : String
  is_legacy : Bool
  deriving DecidableEq

/-- models the REGIONS table of src/regions.rs, as its insertion list; the
keys are pairwise distinct, so HashMap lookup is association-list lookup. -/
def REGIONS : List (String × RegionInfo) :=
  [ ("eu-west", { code := "uk-lhr", region := "eu-west", is_legacy := true }),
    ("se-sto", { code := "se-sto", region := "se-sto", is_legacy := false }),
    ("us-iad", { code := "us-iad", region := "us-iad", is_legacy := false }),
    ("us-lax", { code := "us-lax", region := "us-lax", is_legacy := false }),
    ("us-ord", { code := "us-ord", region := "us-ord", is_legacy := false }),
    ("us-mia", { code := "us-mia", region := "us-mia", is_legacy := false }),
    ("us-sea", { code := "us-sea", region := "us-sea", is_legacy := false }),
    ("us-southeast", { code := "us-atl", region := "us-southeast", is_legacy := true }),
    ("us-central", { code := "us-dfw", region := "us-central", is_legacy := true }),
    ("us-east", { code := "us-ewr", region := "us-east", is_legacy := true }),
    ("ca-central", { code := "ca-yyz", region := "ca-central", is_legacy := true }),
    ("br-gru", { code := "br-gru", region := "br-gru", is_legacy := false }),
    ("jp-osa", { code := "jp-osa", region := "jp-osa", is_legacy := false }),
    ("fr-par", { code := "fr-par", region := "fr-par", is_legacy := false }),
    ("it-mil", { code := "it-mil", region := "it-mil", is_legacy := false }),
    ("ap-southeast", { code := "au-syd", region := "ap-southeast", is_legacy := true }) ]

/-- models REGIONS.get(region). -/
def regionsGet (r : String) : Option RegionInfo :=
  (REGIONS.find? (fun p => p.1 == r)).map (fun p => p.2)

/-- Observable outcome of one CLI scale command: units completed, the
diagnostic printed to stderr if any, and the process exit status. -/
structure CliOutcome where
  performedUnits : Nat
  stderrDiag : Option String
  exitCode : Nat
  deriving DecidableEq

/-- models the scale-down loop of main: n sequential units, the batch aborted
at the first failing unit, earlier units left applied. -/
def iterDown (code tag : String) : Nat → World → World × Nat × Bool
  | 0, w => (w, 0, false)
  | Nat.succ n, w =>
    match scale_down_one w code tag with
    | Except.error _ => (w, 0, true)
    | Except.ok w2 =>
      let out := iterDown code tag n w2
      (out.1, out.2.1 + 1, out.2.2)

/-- models the scale-up loop of main, with one oracle per unit. -/
def iterUp (code tag : String) (oracle : Nat → UpOracle) : Nat → Nat → World → World × Nat × Bool
  | 0, _, w => (w, 0, false)
  | Nat.succ n, i, w =>
    match scale_up_one w code tag (oracle i) with
    | Except.error _ => (w, 0, true)
    | Except.ok w2 =>
      let out := iterUp code tag oracle n (i + 1) w2
      (out.1, out.2.1 + 1, out.2.2)

/-- models main's ScaleAction::Down arm: the region gate, then the loop.  An
unresolved region prints the diagnostic and main still returns Ok (exit status
0); the single quotes around the region argument in the eprintln are elided. -/
def mainScaleDown (w : World) (regionArg tag : String) (n : Nat) : World × CliOutcome :=
  match regionsGet regionArg with
  | some info =>
    let out := iterDown info.code tag n w
    (out.1, { performedUnits := out.2.1, stderrDiag := none, exitCode := if out.2.2 then 1 else 0 })
  | none =>
    (w, { performedUnits := 0,
          stderrDiag := some ("Region code " ++ regionArg ++ " not found."),
          exitCode := 0 })

/-- models main's ScaleAction::Up arm, analogous to mainScaleDown. -/
def mainScaleUp (w : World) (regionArg tag : String) (oracle : Nat → UpOracle) (n : Nat) : World × CliOutcome :=
  match regionsGet regionArg with
  | some info =>
    let out := iterUp info.code tag oracle n 0 w
    (out.1, { performedUnits := out.2.1, stderrDiag := none, exitCode := if out.2.2 then 1 else 0 })
  | none =>
    (w, { performedUnits := 0,
          stderrDiag := some ("Region code " ++ regionArg ++ " not found."),
          exitCode := 0 })

/-- A record the scale-up scan claims: an A record whose name begins with the
group pattern and whose target is the down sentinel. -/
def isDownSlot (pfx : String) (r : DomainRecord) : Bool :=
  strStartsWith r.name pfx && r.record_type == A_RECORD && r.target == LOCALHOST

/-- Trailing numbers of all A records whose name begins with the group
pattern, in provider order (statement-side view of the scan's seqs). -/
def slotSeqs (pfx : String) (records : List DomainRecord) : List Int :=
  records.filterMap (fun r =>
    if strStartsWith r.name pfx && r.record_type == A_RECORD then extract_number r.name else none)

/-- Statement-side view of one interface of the address scan: the parsed
octet of a tag-labelled, addressed interface, none otherwise. -/
def specOctet (tag : String) (iface : Interface) : Option Nat :=
  match iface.label, iface.ipam_address with
  | some label, some ipam =>
    if label = tag then
      match (splitStr '.' ((splitStr '/' ipam).headD ""))[3]? with
      | some last => parseU8 last
      | none => none
    else none
  | _, _ => none

/-- Statement-side view of the address scan: the parsed octets of every
interface labelled with the tag, over all configurations of all inventoried
instances, in scan order. -/
def taggedOctets (tag : String) (configsOf : Nat → List Configuration)
    (instances : List LinodeInstance) : List Nat :=
  (((instances.map (fun inst => configsOf inst.id)).flatten.map
      (fun c => c.interfaces)).flatten).filterMap (specOctet tag)

/-- The last fetched record bearing a given target (statement-side view of
the HashMap's override behaviour). -/
def lastTargetMatch (records : List DomainRecord) (k : String) : Option DomainRecord :=
  records.reverse.find? (fun r => r.target == k)

/-- One scale-up immediately followed by one scale-down on the same tag and
region, as main sequences the two state machines. -/
def roundTrip (w : World) (code tag : String) (o : UpOracle) : Except String World :=
  (scale_up_one w code tag o).bind (fun w1 => scale_down_one w1 code tag)

/-- Fixture: a VLAN interface carrying a group label and a CIDR address. -/
def vlanIface (tag addr : String) : Interface :=
  { purpose := "vlan", ipam_address := some addr, label := some tag }

/-- Fixture: an A record with the default ttl the tool writes. -/
def mkA (id : Nat) (name target : String) : DomainRecord :=
  { id := id, record_type := "A", name := name, target := target, ttl_sec := 3600 }

/-- Fixture: a one-slot record set with a live slot 1 and a vacated slot 2. -/
def c1Records : List DomainRecord :=
  [ mkA 1 "web-us-iad-1" "1.2.3.4", mkA 2 "web-us-iad-2" "127.0.0.1" ]

/-- Fixture: a live slot record whose trailing number is i32::MAX. -/
def c1CexRecords : List DomainRecord := [ mkA 1 "web-us-iad-2147483647" "1.2.3.4" ]

/-- Fixture: an inventoried instance of the web/us-iad group. -/
def allocInst : LinodeInstance :=
  { id := 1, label := "a", instance_type := "t", ipv4 := ["1.1.1.1"], region := "us-iad",
    tags := ["web", "us-iad"] }

/-- Fixture: a configuration store whose interfaces hold octets 3, 5 and 7. -/
def allocConfigs : Nat → List Configuration := fun _ =>
  [ { id := 10,
      interfaces := [vlanIface "web" "10.0.0.3/24", vlanIface "web" "10.0.0.5/24",
                     vlanIface "web" "10.0.0.7/24"] } ]

/-- Fixture: a configuration store holding the boundary octet 255. -/
def boundaryConfigs : Nat → List Configuration := fun _ =>
  [ { id := 10, interfaces := [vlanIface "web" "10.0.0.255/24"] } ]

/-- Fixture: a tagged interface whose address has fewer than four dot-separated pieces. -/
def badIface : Interface := { purpose := "vlan", ipam_address := some "10.0/24", label := some "web" }

/-- Fixture: a configuration store holding only the short-address interface. -/
def badConfigs : Nat → List Configuration := fun _ => [ { id := 10, interfaces := [badIface] } ]

/-- Fixture: a state with one live instance bound to slot 1. -/
def c4World : World :=
  { instances := [ { id := 1, label := "a", instance_type := "t", ipv4 := ["1.1.1.1"],
                     region := "us-iad", tags := ["web", "us-iad"] } ],
    configs := fun _ => [],
    records := [ mkA 1 "web-us-iad-1" "1.1.1.1" ] }

/-- Fixture: provider responses for a scale-up of the web/us-iad group. -/
def c4Oracle : UpOracle :=
  { newInst := { id := 2, label := "b", instance_type := "t", ipv4 := ["2.2.2.2"],
                 region := "us-iad", tags := ["web", "us-iad"] },
    newConfigs := [ { id := 10, interfaces := [] } ],
    newRecId := 2 }

/-- Fixture: an empty fleet whose only record is a vacated slot. -/
def c4wWorld : World :=
  { instances := [], configs := fun _ => [], records := [ mkA 1 "web-us-iad-1" "127.0.0.1" ] }

/-- Fixture: provider responses used with the empty-fleet state. -/
def c4wOracle : UpOracle :=
  { newInst := { id := 5, label := "c", instance_type := "t", ipv4 := ["3.3.3.3"],
                 region := "us-iad", tags := ["web", "us-iad"] },
    newConfigs := [ { id := 20, interfaces := [] } ],
    newRecId := 9 }

/-- Fixture: a group instance carrying no public address at all. -/
def c5BadWorld : World :=
  { instances := [ { id := 1, label := "a", instance_type := "t", ipv4 := [],
                     region := "us-iad", tags := ["web", "us-iad"] } ],
    configs := fun _ => [], records := [] }

/-- Fixture: one addressed instance and one record targeting a different address. -/
def c5World : World :=
  { instances := [ { id := 1, label := "a", instance_type := "t", ipv4 := ["9.9.9.9"],
                     region := "us-iad", tags := ["web", "us-iad"] } ],
    configs := fun _ => [], records := [ mkA 1 "web-us-iad-1" "1.1.1.1" ] }

/-- Fixture: a state with no instances, configurations or records. -/
def emptyWorld : World := { instances := [], configs := fun _ => [], records := [] }

/-- Fixture: an oracle stream for the CLI scale-up loop. -/
def trivOracle : Nat → UpOracle := fun _ => c4Oracle

/-- Fixture: a TXT record of an unrelated name whose target is an instance's address. -/
def c8World : World :=
  { instances := [ { id := 7, label := "x", instance_type := "t", ipv4 := ["9.9.9.9"],
                     region := "us-iad", tags := ["web", "us-iad"] } ],
    configs := fun _ => [],
    records := [ { id := 3, record_type := "TXT", name := "something-else", target := "9.9.9.9",
                   ttl_sec := 600 } ] }

/-- Fixture: an A record whose name merely begins with the group pattern. -/
def c9Records : List DomainRecord := [ mkA 1 "web-us-iad-backup-7" "8.8.8.8" ]

/-- Fixture: a down-target A record whose name merely begins with the group pattern. -/
def c9RecordsDown : List DomainRecord := [ mkA 2 "web-us-iad-backup-3" "127.0.0.1" ]

/-- Fixture: two records sharing one target, and an instance at that target. -/
def c10World : World :=
  { instances := [ { id := 1, label := "a", instance_type := "t", ipv4 := ["5.5.5.5"],
                     region := "us-iad", tags := ["web", "us-iad"] } ],
    configs := fun _ => [],
    records := [ mkA 1 "n1" "5.5.5.5", mkA 2 "n2" "5.5.5.5" ] }

/-- Helper: the optional last element of a list is a member. -/
theorem mem_of_getLast?_eq_some {α : Type} : ∀ {l : List α} {a : α}, l.getLast? = some a → a ∈ l
  | [], a, h => by simp [List.getLast?] at h
  | [b], a, h => by
    simp [List.getLast?] at h
    simp [h]
  | b :: c :: t, a, h => by
    rw [List.getLast?_cons_cons] at h
    exact List.mem_cons_of_mem _ (mem_of_getLast?_eq_some h)

/-- Helper: in an ascending-sorted list every element is at most the last one. -/
theorem le_of_sorted_getLast? : ∀ {l : List Int}, l.Sorted (fun a b => a ≤ b) →
    ∀ {m : Int}, l.getLast? = some m → ∀ x ∈ l, x ≤ m
  | [], _, _, h => by simp [List.getLast?] at h
  | [b], hs, m, h => by
    simp [List.getLast?] at h
    subst h
    simp
  | b :: c :: t, hs, m, h => by
    rw [List.getLast?_cons_cons] at h
    obtain ⟨hb, hs2⟩ := List.sorted_cons.mp hs
    intro x hx
    rcases List.mem_cons.mp hx with rfl | hx2
    · have hcm : c ≤ m := le_of_sorted_getLast? hs2 h c (by simp)
      exact le_trans (hb c (by simp)) hcm
    · exact le_of_sorted_getLast? hs2 h x hx2

/-- Helper: a nonempty reversed ascending sort starts with a greatest element of the input. -/
theorem reverse_sort_head_max (seqs : List Int) (x : Int) (rest : List Int)
    (h : (List.insertionSort (fun a b => a ≤ b) seqs).reverse = x :: rest) :
    x ∈ seqs ∧ ∀ k ∈ seqs, k ≤ x := by
  have hperm := List.perm_insertionSort (fun a b => a ≤ b) seqs
  have hsort := List.sorted_insertionSort (fun a b => a ≤ b) seqs
  have hlast : (List.insertionSort (fun a b => a ≤ b) seqs).getLast? = some x := by
    rw [← List.head?_reverse, h]
    rfl
  constructor
  · exact hperm.mem_iff.mp (mem_of_getLast?_eq_some hlast)
  · intro k hk
    exact le_of_sorted_getLast? hsort hlast k (hperm.mem_iff.mpr hk)

/-- Helper: the reversed sort is empty only for an empty input. -/
theorem reverse_sort_nil (seqs : List Int)
    (h : (List.insertionSort (fun a b => a ≤ b) seqs).reverse = []) : seqs = [] := by
  have h2 : List.insertionSort (fun a b => a ≤ b) seqs = [] := by
    simpa using congrArg List.reverse h
  have hperm := List.perm_insertionSort (fun a b => a ≤ b) seqs
  rw [h2] at hperm
  exact hperm.symm.eq_nil

/-- Helper: when the scan meets a down slot it claims the first one found. -/
theorem scanSlots_claim (pfx : String) : ∀ (records : List DomainRecord) (r : DomainRecord),
    records.find? (isDownSlot pfx) = some r →
    ∀ seqs, (scanSlots pfx records seqs).1 = some r.id := by
  intro records
  induction records with
  | nil => intro r h; simp at h
  | cons a rest ih =>
    intro r h seqs
    by_cases hd : isDownSlot pfx a = true
    · rw [List.find?_cons_of_pos _ hd] at h
      injection h with h
      subst h
      simp only [isDownSlot, Bool.and_eq_true, beq_iff_eq] at hd
      simp [scanSlots, hd.1.1, hd.1.2, hd.2]
    · rw [List.find?_cons_of_neg _ hd] at h
      cases hb1 : strStartsWith a.name pfx with
      | false =>
        rw [show scanSlots pfx (a :: rest) seqs = scanSlots pfx rest seqs by
          simp [scanSlots, hb1]]
        exact ih r h seqs
      | true =>
        cases hb2 : (a.record_type == A_RECORD) with
        | false =>
          rw [show scanSlots pfx (a :: rest) seqs = scanSlots pfx rest seqs by
            simp [scanSlots, hb1, hb2]]
          exact ih r h seqs
        | true =>
          have hb3 : (a.target == LOCALHOST) = false := by
            cases hb3 : (a.target == LOCALHOST) with
            | false => rfl
            | true => exact absurd (by simp [isDownSlot, hb1, hb2, hb3]) hd
          cases hext : extract_number a.name with
          | some n =>
            rw [show scanSlots pfx (a :: rest) seqs = scanSlots pfx rest (seqs ++ [n]) by
              simp [scanSlots, hb1, hb2, hb3, hext]]
            exact ih r h (seqs ++ [n])
          | none =>
            rw [show scanSlots pfx (a :: rest) seqs = scanSlots pfx rest seqs by
              simp [scanSlots, hb1, hb2, hb3, hext]]
            exact ih r h seqs

/-- Helper: a scan meeting no down slot collects exactly the trailing numbers
of the pattern-matching A records, appended to the accumulator. -/
theorem scanSlots_noclaim (pfx : String) : ∀ (records : List DomainRecord),
    records.find? (isDownSlot pfx) = none →
    ∀ seqs, scanSlots pfx records seqs = (none, seqs ++ slotSeqs pfx records) := by
  intro records
  induction records with
  | nil => intro h seqs; simp [scanSlots, slotSeqs]
  | cons a rest ih =>
    intro h seqs
    rw [List.find?_eq_none] at h
    have hd : ¬ isDownSlot pfx a = true := h a (by simp)
    have h2 : rest.find? (isDownSlot pfx) = none := by
      rw [List.find?_eq_none]
      intro x hx
      exact h x (List.mem_cons_of_mem _ hx)
    cases hb1 : strStartsWith a.name pfx with
    | false =>
      rw [show scanSlots pfx (a :: rest) seqs = scanSlots pfx rest seqs by
        simp [scanSlots, hb1]]
      rw [ih h2 seqs]
      simp [slotSeqs, List.filterMap_cons, hb1]
    | true =>
      cases hb2 : (a.record_type == A_RECORD) with
      | false =>
        have hb2' : ¬ a.record_type = A_RECORD := by simpa using hb2
        rw [show scanSlots pfx (a :: rest) seqs = scanSlots pfx rest seqs by
          simp [scanSlots, hb1, hb2]]
        rw [ih h2 seqs]
        simp [slotSeqs, List.filterMap_cons, hb1, hb2']
      | true =>
        have hb2' : a.record_type = A_RECORD := by simpa using hb2
        have hb3 : (a.target == LOCALHOST) = false := by
          cases hb3 : (a.target == LOCALHOST) with
          | false => rfl
          | true => exact absurd (by simp [isDownSlot, hb1, hb2, hb3]) hd
        cases hext : extract_number a.name with
        | some n =>
          rw [show scanSlots pfx (a :: rest) seqs = scanSlots pfx rest (seqs ++ [n]) by
            simp [scanSlots, hb1, hb2, hb3, hext]]
          rw [ih h2 (seqs ++ [n])]
          simp [slotSeqs, List.filterMap_cons, hb1, hb2', hext]
        | none =>
          rw [show scanSlots pfx (a :: rest) seqs = scanSlots pfx rest seqs by
            simp [scanSlots, hb1, hb2, hb3, hext]]
          rw [ih h2 seqs]
          simp [slotSeqs, List.filterMap_cons, hb1, hb2', hext]

/-- C1 amended: scanning the fetched records in provider order, the first A
record whose name begins with the group pattern and whose target is the down
sentinel is claimed and nothing is created; otherwise an A record named with
the 32-bit wrap of one plus the greatest parseable trailing number among the
pattern-matching A records (1 when none parses; the wrap differs from the
plain sum only at suffix 2147483647) is created with the given target. -/
theorem C1_dns_slot_reconciliation (records : List DomainRecord) (pfx t : String) :
    (∀ r : DomainRecord, records.find? (isDownSlot pfx) = some r →
      dnsReconcile records pfx t = DnsAction.claim r.id)
    ∧ (records.find? (isDownSlot pfx) = none →
      ∃ n : Int, dnsReconcile records pfx t = DnsAction.create (pfx ++ "-" ++ toString n) t ∧
        ((slotSeqs pfx records = [] ∧ n = 1) ∨
         (∃ m, m ∈ slotSeqs pfx records ∧ (∀ k ∈ slotSeqs pfx records, k ≤ m)
           ∧ n = wrapI32 (m + 1)))) := by
  constructor
  · intro r h
    have hc := scanSlots_claim pfx records r h []
    unfold dnsReconcile
    rcases hsc : scanSlots pfx records [] with ⟨c, s⟩
    rw [hsc] at hc
    simp at hc
    subst hc
    simp
  · intro h
    have hs := scanSlots_noclaim pfx records h []
    unfold dnsReconcile
    rw [hs]
    simp only [List.nil_append]
    cases hrev : (List.insertionSort (fun a b => a ≤ b) (slotSeqs pfx records)).reverse with
    | nil =>
      refine ⟨1, ?_, Or.inl ⟨reverse_sort_nil _ hrev, rfl⟩⟩
      simp [hrev]
    | cons x rest =>
      obtain ⟨hmem, hmax⟩ := reverse_sort_head_max _ x rest hrev
      refine ⟨wrapI32 (x + 1), ?_, Or.inr ⟨x, hmem, hmax, rfl⟩⟩
      simp [hrev]

/-- C1 witness: on a record set with a live slot 1 and a vacated slot 2, the
reconciler claims record 2. -/
theorem C1_dns_slot_reconciliation_witness :
    dnsReconcile c1Records "web-us-iad" "9.9.9.9" = DnsAction.claim 2 :=
  (C1_dns_slot_reconciliation c1Records "web-us-iad" "9.9.9.9").1
    (mkA 2 "web-us-iad-2" "127.0.0.1") (by decide)

/-- C1 counterexample: at a trailing suffix of 2147483647 (i32::MAX) the next
slot number wraps, so the record created is web-us-iad--2147483648 and not
web-us-iad-2147483648 as one plus the maximum would demand. -/
theorem C1_dns_slot_reconciliation_cex :
    dnsReconcile c1CexRecords "web-us-iad" "9.9.9.9"
      = DnsAction.create "web-us-iad--2147483648" "9.9.9.9"
    ∧ dnsReconcile c1CexRecords "web-us-iad" "9.9.9.9"
      ≠ DnsAction.create ("web-us-iad" ++ "-" ++ toString ((2147483647 : Int) + 1)) "9.9.9.9" :=
  ⟨by decide, by decide⟩

/-- Helper: a successful per-interface scan computes exactly the spec-side octet. -/
theorem interfaceOctet_ok (tag : String) (iface : Interface) (o : Option Nat)
    (h : interfaceOctet tag iface = Except.ok o) : o = specOctet tag iface := by
  cases hl : iface.label with
  | none =>
    simp [interfaceOctet, hl] at h
    simp [specOctet, hl, ← h]
  | some label =>
    by_cases ht : label = tag
    · cases hi : iface.ipam_address with
      | none =>
        simp [interfaceOctet, hl, hi, ht] at h
        simp [specOctet, hl, hi, ht, ← h]
      | some ipam =>
        cases hp : (splitStr '/' ipam)[0]? with
        | none => simp [interfaceOctet, hl, hi, ht, hp] at h
        | some piece0 =>
          cases hq : (splitStr '.' piece0)[3]? with
          | none => simp [interfaceOctet, hl, hi, ht, hp, hq] at h
          | some last =>
            simp [interfaceOctet, hl, hi, ht, hp, hq] at h
            have hhead : (splitStr '/' ipam).head? = some piece0 := by
              cases hsp : splitStr '/' ipam with
              | nil => rw [hsp] at hp; simp at hp
              | cons x xs =>
                rw [hsp] at hp
                simp at hp
                simp [hp]
            simp [specOctet, hl, hi, ht, hhead, hq, ← h]
    · simp [interfaceOctet, hl, ht] at h
      cases hi : iface.ipam_address <;> simp [specOctet, hl, hi, ht, ← h]

/-- Helper: a successful interface-loop scan filters the spec-side octets. -/
theorem interfaceOctets_ok (tag : String) : ∀ (ifaces : List Interface) (l : List Nat),
    interfaceOctets tag ifaces = Except.ok l → l = ifaces.filterMap (specOctet tag) := by
  intro ifaces
  induction ifaces with
  | nil =>
    intro l h
    simp [interfaceOctets] at h
    simp [← h]
  | cons i rest ih =>
    intro l h
    unfold interfaceOctets at h
    cases ho : interfaceOctet tag i with
    | error e => rw [ho] at h; simp at h
    | ok o =>
      rw [ho] at h
      cases hr : interfaceOctets tag rest with
      | error e => rw [hr] at h; simp at h
      | ok l2 =>
        rw [hr] at h
        simp at h
        subst h
        rw [List.filterMap_cons, ← interfaceOctet_ok tag i o ho, ih l2 hr]
        cases o <;> simp

/-- Helper: a successful configuration-loop scan flattens the interface scans. -/
theorem configOctets_ok (tag : String) : ∀ (cs : List Configuration) (l : List Nat),
    configOctets tag cs = Except.ok l →
    l = ((cs.map (fun c => c.interfaces)).flatten).filterMap (specOctet tag) := by
  intro cs
  induction cs with
  | nil =>
    intro l h
    simp [configOctets] at h
    simp [← h]
  | cons c rest ih =>
    intro l h
    unfold configOctets at h
    cases ho : interfaceOctets tag c.interfaces with
    | error e => rw [ho] at h; simp at h
    | ok l1 =>
      rw [ho] at h
      cases hr : configOctets tag rest with
      | error e => rw [hr] at h; simp at h
      | ok l2 =>
        rw [hr] at h
        simp at h
        subst h
        rw [interfaceOctets_ok tag c.interfaces l1 ho, ih l2 hr]
        simp [List.filterMap_append]

/-- Helper: a successful full scan computes exactly the tagged octets. -/
theorem collectCidrs_ok (tag : String) (configsOf : Nat → List Configuration) :
    ∀ (instances : List LinodeInstance) (l : List Nat),
    collectCidrs tag configsOf instances = Except.ok l →
    l = taggedOctets tag configsOf instances := by
  intro instances
  induction instances with
  | nil =>
    intro l h
    simp [collectCidrs] at h
    simp [taggedOctets, ← h]
  | cons inst rest ih =>
    intro l h
    unfold collectCidrs at h
    cases ho : configOctets tag (configsOf inst.id) with
    | error e => rw [ho] at h; simp at h
    | ok l1 =>
      rw [ho] at h
      cases hr : collectCidrs tag configsOf rest with
      | error e => rw [hr] at h; simp at h
      | ok l2 =>
        rw [hr] at h
        simp at h
        subst h
        rw [configOctets_ok tag (configsOf inst.id) l1 ho, ih l2 hr]
        simp [taggedOctets, List.filterMap_append]

/-- Helper: folding max from the left equals max of the seed and the right fold. -/
theorem foldl_max_eq (l : List Nat) : ∀ a : Nat, l.foldl max a = max a (l.foldr max 0) := by
  induction l with
  | nil => intro a; simp
  | cons c t ih =>
    intro a
    simp only [List.foldl_cons, List.foldr_cons]
    rw [ih (max a c), max_assoc]

/-- Helper: the source's wrapping iterator-max increment is one plus the fold
max, reduced modulo 256. -/
theorem nextOctet_eq (l : List Nat) : nextOctet l = (l.foldr max 0 + 1) % 256 := by
  cases l with
  | nil => rfl
  | cons a t =>
    show (match (a :: t).max? with | some m => (m + 1) % 256 | none => 1) = _
    rw [show (a :: t).max? = some (t.foldl max a) from rfl]
    simp only [List.foldr_cons]
    rw [foldl_max_eq]

/-- C2 amended: a successful address scan yields exactly the octets parsed
from the tag-labelled interfaces over all configurations of all inventoried
instances, and the allocated octet is one plus their maximum reduced modulo
256 (the u8 wrap matters only at octet 255) — 1 for an empty set, 8 for
octets 3, 5, 7. -/
theorem C2_address_allocation (tag : String) (configsOf : Nat → List Configuration)
    (instances : List LinodeInstance) (l : List Nat)
    (h : collectCidrs tag configsOf instances = Except.ok l) :
    l = taggedOctets tag configsOf instances
    ∧ nextOctet l = (l.foldr max 0 + 1) % 256
    ∧ nextOctet [] = 1 ∧ nextOctet [3, 5, 7] = 8 :=
  ⟨collectCidrs_ok tag configsOf instances l h, nextOctet_eq l, rfl, rfl⟩

/-- C2 witness: the fixture with octets 3, 5 and 7 allocates octet 8. -/
theorem C2_address_allocation_witness :
    collectCidrs "web" allocConfigs [allocInst] = Except.ok [3, 5, 7]
    ∧ (([3, 5, 7] : List Nat) = taggedOctets "web" allocConfigs [allocInst]
      ∧ nextOctet [3, 5, 7] = ([3, 5, 7].foldr max 0 + 1) % 256
      ∧ nextOctet [] = 1 ∧ nextOctet [3, 5, 7] = 8) :=
  ⟨rfl, C2_address_allocation "web" allocConfigs [allocInst] [3, 5, 7] rfl⟩

/-- C2 counterexample: octet 255 is reachable through the scan, and there the
u8 addition wraps — the allocator yields 0, not one plus the maximum (256). -/
theorem C2_address_allocation_cex :
    collectCidrs "web" boundaryConfigs [allocInst] = Except.ok [255]
    ∧ nextOctet [255] = 0
    ∧ [255].foldr max 0 + 1 = 256 :=
  ⟨rfl, rfl, rfl⟩

/-- C3: the address scan is not total — a tagged interface whose private
address has fewer than four dot-separated pieces makes the scan abort with the
modelled index-out-of-bounds panic instead of being skipped, contradicting the
spec's "never fails" contract. -/
theorem C3_allocator_panics_on_short_address :
    collectCidrs "web" badConfigs [allocInst]
      = Except.error "index out of bounds: ip_parts[3]" := rfl

/-- Helper: folding target inserts looks up the last record with the key,
falling back to the initial map. -/
theorem foldl_insertTarget (records : List DomainRecord) :
    ∀ (init : String → Option Nat) (k : String),
    (records.foldl insertTarget init) k
      = match records.reverse.find? (fun r => r.target == k) with
        | some r => some r.id
        | none => init k := by
  induction records with
  | nil => intro init k; simp
  | cons r rest ih =>
    intro init k
    rw [List.foldl_cons, ih (insertTarget init r) k, List.reverse_cons, List.find?_append]
    cases hf : rest.reverse.find? (fun r2 => r2.target == k) with
    | some r2 => simp [Option.or]
    | none =>
      simp only [Option.or]
      by_cases ht : r.target = k
      · simp [insertTarget, List.find?_cons, ht]
      · have ht2 : ¬ k = r.target := fun hh => ht hh.symm
        simp [insertTarget, List.find?_cons, ht, ht2]

/-- Helper: the scale-down map keeps, for each target, the id of the record
appearing last in provider order. -/
theorem buildTargetMap_eq (records : List DomainRecord) (k : String) :
    buildTargetMap records k = (lastTargetMatch records k).map (fun r => r.id) := by
  unfold buildTargetMap lastTargetMatch
  rw [foldl_insertTarget]
  cases records.reverse.find? (fun r => r.target == k) <;> simp

/-- C10: when several records share one target the lookup keeps only the one
appearing last in provider order, and scale-down repoints that last record —
on the two-record fixture, record 2 is repointed while record 1 keeps its
target. -/
theorem C10_last_record_wins (records : List DomainRecord) (k : String) :
    buildTargetMap records k = (lastTargetMatch records k).map (fun r => r.id)
    ∧ (scale_down_one c10World "us-iad" "web").map
        (fun w => w.records.map (fun r => (r.id, r.target)))
      = Except.ok [(1, "5.5.5.5"), (2, LOCALHOST)] :=
  ⟨buildTargetMap_eq records k, rfl⟩

/-- Helper: instances whose first address misses the map are skipped by the
matching loop. -/
theorem findMatch_skip (amap : String → Option Nat) :
    ∀ (insts tail : List LinodeInstance),
    (insts.all (fun inst => match inst.ipv4[0]? with
      | some ip => (amap ip).isNone
      | none => false) = true) →
    findMatch amap (insts ++ tail) = findMatch amap tail := by
  intro insts tail
  induction insts with
  | nil => intro h; rfl
  | cons i rest ih =>
    intro h
    rw [List.all_cons, Bool.and_eq_true] at h
    obtain ⟨h1, h2⟩ := h
    cases hip : i.ipv4[0]? with
    | none => rw [hip] at h1; simp at h1
    | some ip =>
      rw [hip] at h1
      simp at h1
      rw [List.cons_append]
      rw [show findMatch amap (i :: (rest ++ tail)) = findMatch amap (rest ++ tail) by
        simp [findMatch, hip, h1]]
      exact ih h2

/-- C5 amended: when every inventoried group instance has a first public
address and none of those addresses is the target of any fetched record,
scale-down completes without error, mutating no record and destroying no
instance. -/
theorem C5_scale_down_noop (w : World) (code tag : String)
    (h : (get_instances_by_tag w.instances [tag, code]).all
        (fun inst => match inst.ipv4[0]? with
          | some ip => (buildTargetMap w.records ip).isNone
          | none => false) = true) :
    scale_down_one w code tag = Except.ok w := by
  simp only [scale_down_one]
  rw [show findMatch (buildTargetMap w.records) (get_instances_by_tag w.instances [tag, code])
      = Except.ok none from by
    have h2 := findMatch_skip (buildTargetMap w.records)
      (get_instances_by_tag w.instances [tag, code]) [] h
    rw [List.append_nil] at h2
    rw [h2]
    rfl]

/-- C5 counterexample: a group instance carrying no public address satisfies
the claim's no-match premise (it has no first address equal to any record
target), yet scale-down aborts with the modelled ipv4[0] panic instead of
completing without error. -/
theorem C5_scale_down_noop_cex :
    (get_instances_by_tag c5BadWorld.instances ["web", "us-iad"]).all
        (fun inst => inst.ipv4.all (fun ip => (buildTargetMap c5BadWorld.records ip).isNone)) = true
    ∧ scale_down_one c5BadWorld "us-iad" "web"
        = Except.error "index out of bounds: ipv4[0]" :=
  ⟨rfl, rfl⟩

/-- C5 witness: one addressed instance, one record at another address — the
operation returns the state unchanged. -/
theorem C5_scale_down_noop_witness :
    ((get_instances_by_tag c5World.instances ["web", "us-iad"]).all
        (fun inst => match inst.ipv4[0]? with
          | some ip => (buildTargetMap c5World.records ip).isNone
          | none => false) = true)
    ∧ scale_down_one c5World "us-iad" "web" = Except.ok c5World :=
  ⟨rfl, C5_scale_down_noop c5World "us-iad" "web" rfl⟩

/-- C8: scale-down's lookup is built from every fetched record without kind
or name filtering — a TXT record of an unrelated name whose target equals the
group instance's first address is repointed to the down sentinel and that
instance is destroyed. -/
theorem C8_scale_down_unfiltered_lookup :
    (scale_down_one c8World "us-iad" "web").map (fun w => (w.instances, w.records))
      = Except.ok ([], [ { id := 3, record_type := "TXT", name := "something-else",
                           target := LOCALHOST, ttl_sec := 600 } ]) := rfl

/-- C9: the slot scan selects by string beginning, not exact slot shape — an A
record named web-us-iad-backup-7 contributes its trailing 7 to the next-slot
computation (creating web-us-iad-8), and such a record with the down-sentinel
target is claimed. -/
theorem C9_slot_scan_matches_by_leading_string :
    strStartsWith "web-us-iad-backup-7" "web-us-iad" = true
    ∧ dnsReconcile c9Records "web-us-iad" "9.9.9.9" = DnsAction.create "web-us-iad-8" "9.9.9.9"
    ∧ dnsReconcile c9RecordsDown "web-us-iad" "9.9.9.9" = DnsAction.claim 2 :=
  ⟨rfl, rfl, rfl⟩

/-- C7 counterexample: an unresolved region prints the diagnostic and performs
no operation, but the command finishes with exit status 0, not non-zero. -/
theorem C7_region_gate_cex :
    (mainScaleDown emptyWorld "mars" "web" 1).2.exitCode = 0
    ∧ (mainScaleDown emptyWorld "mars" "web" 1).2.stderrDiag
        = some "Region code mars not found."
    ∧ (mainScaleDown emptyWorld "mars" "web" 1).2.performedUnits = 0 :=
  ⟨rfl, rfl, rfl⟩

/-- C7 amended: for every region argument missing from the fixed mapping, both
scale commands abort before performing any operation, leave the state
untouched, emit the diagnostic — and terminate with exit status 0 (success),
not non-zero. -/
theorem C7_region_gate (regionArg : String) (h : regionsGet regionArg = none)
    (w : World) (tag : String) (n : Nat) (oracle : Nat → UpOracle) :
    mainScaleDown w regionArg tag n
      = (w, { performedUnits := 0,
              stderrDiag := some ("Region code " ++ regionArg ++ " not found."),
              exitCode := 0 })
    ∧ mainScaleUp w regionArg tag oracle n
      = (w, { performedUnits := 0,
              stderrDiag := some ("Region code " ++ regionArg ++ " not found."),
              exitCode := 0 }) := by
  constructor <;> simp [mainScaleDown, mainScaleUp, h]

/-- C7 witness: the unresolved region name atlantis leaves the empty state
untouched and exits 0 from both commands. -/
theorem C7_region_gate_witness :
    regionsGet "atlantis" = none
    ∧ (mainScaleDown emptyWorld "atlantis" "web" 2
        = (emptyWorld, { performedUnits := 0,
                         stderrDiag := some ("Region code " ++ "atlantis" ++ " not found."),
                         exitCode := 0 })
      ∧ mainScaleUp emptyWorld "atlantis" "web" trivOracle 2
        = (emptyWorld, { performedUnits := 0,
                         stderrDiag := some ("Region code " ++ "atlantis" ++ " not found."),
                         exitCode := 0 })) :=
  ⟨rfl, C7_region_gate "atlantis" rfl emptyWorld "web" 2 trivOracle⟩

/-- Helper: when the address scan, the first configuration and the first
public address all exist, scale-up succeeds and its effect on the listing, the
record set and the new instance's configurations is explicit. -/
theorem scale_up_one_ok (w : World) (code tag : String) (o : UpOracle)
    (cidrs : List Nat) (cfg0 : Configuration) (ip : String)
    (hc : collectCidrs tag w.configs (get_instances_by_tag w.instances [tag, code]) = Except.ok cidrs)
    (h0 : o.newConfigs[0]? = some cfg0)
    (hip : o.newInst.ipv4[0]? = some ip) :
    ∃ w1 : World, scale_up_one w code tag o = Except.ok w1
      ∧ w1.instances = w.instances ++ [o.newInst]
      ∧ w1.records = upRecords w.records (tag ++ "-" ++ code) ip o.newRecId
      ∧ w1.configs o.newInst.id
          = o.newConfigs.map (fun c =>
              if c.id = cfg0.id then { c with interfaces := newInterfaces tag (nextOctet cidrs) }
              else c) := by
  simp only [scale_up_one, hc, h0, hip]
  refine ⟨_, rfl, rfl, rfl, ?_⟩
  simp

/-- Helper: the optional first element of a list, from its optional 0th element. -/
theorem head?_of_getElem?_zero {α : Type} {l : List α} {a : α} (h : l[0]? = some a) :
    l.head? = some a := by
  cases hcs : l with
  | nil => rw [hcs] at h; simp at h
  | cons c cs =>
    rw [hcs] at h
    simp at h
    simp [h]

/-- C6: under the success conditions, the interface list written to the new
instance's first configuration is exactly two interfaces — a public one with
no address and no label, then a vlan one labelled with the tag and addressed
10.0.0.(allocated octet)/24 — replacing whatever interface list it had. -/
theorem C6_network_attach (w : World) (code tag : String) (o : UpOracle)
    (cidrs : List Nat) (cfg0 : Configuration) (ip : String)
    (hc : collectCidrs tag w.configs (get_instances_by_tag w.instances [tag, code]) = Except.ok cidrs)
    (h0 : o.newConfigs[0]? = some cfg0)
    (hip : o.newInst.ipv4[0]? = some ip) :
    (scale_up_one w code tag o).map (fun w1 => (w1.configs o.newInst.id).head?)
      = Except.ok (some { cfg0 with interfaces := newInterfaces tag (nextOctet cidrs) })
    ∧ newInterfaces tag (nextOctet cidrs)
      = [ { purpose := "public", ipam_address := none, label := none },
          { purpose := "vlan",
            ipam_address := some ("10.0.0." ++ toString (nextOctet cidrs) ++ "/24"),
            label := some tag } ] := by
  obtain ⟨w1, he, hi, hr, hcf⟩ := scale_up_one_ok w code tag o cidrs cfg0 ip hc h0 hip
  constructor
  · rw [he]
    simp only [Except.map]
    rw [hcf]
    have hh : o.newConfigs.head? = some cfg0 := head?_of_getElem?_zero h0
    rw [List.head?_map, hh]
    simp
  · rfl

/-- C6 witness: on the one-instance fixture the freshly created configuration
ends with exactly the public and vlan interfaces at octet 1. -/
theorem C6_network_attach_witness :
    (collectCidrs "web" c4World.configs
        (get_instances_by_tag c4World.instances ["web", "us-iad"]) = Except.ok []
      ∧ c4Oracle.newConfigs[0]? = some { id := 10, interfaces := [] }
      ∧ c4Oracle.newInst.ipv4[0]? = some "2.2.2.2")
    ∧ ((scale_up_one c4World "us-iad" "web" c4Oracle).map
          (fun w1 => (w1.configs c4Oracle.newInst.id).head?)
        = Except.ok (some { id := 10, interfaces := newInterfaces "web" (nextOctet []) })
      ∧ newInterfaces "web" (nextOctet [])
        = [ { purpose := "public", ipam_address := none, label := none },
            { purpose := "vlan",
              ipam_address := some ("10.0.0." ++ toString (nextOctet []) ++ "/24"),
              label := some "web" } ]) :=
  ⟨⟨rfl, rfl, rfl⟩,
   C6_network_attach c4World "us-iad" "web" c4Oracle [] { id := 10, interfaces := [] }
     "2.2.2.2" rfl rfl rfl⟩

/-- Helper: a claimed slot id comes from one of the scanned records. -/
theorem scanSlots_mem (pfx : String) : ∀ (records : List DomainRecord) (seqs : List Int) (rid : Nat),
    (scanSlots pfx records seqs).1 = some rid → ∃ r ∈ records, r.id = rid := by
  intro records
  induction records with
  | nil => intro seqs rid h; simp [scanSlots] at h
  | cons a rest ih =>
    intro seqs rid h
    cases hb1 : strStartsWith a.name pfx with
    | false =>
      rw [show scanSlots pfx (a :: rest) seqs = scanSlots pfx rest seqs by
        simp [scanSlots, hb1]] at h
      obtain ⟨r, hm, hr⟩ := ih seqs rid h
      exact ⟨r, List.mem_cons_of_mem _ hm, hr⟩
    | true =>
      cases hb2 : (a.record_type == A_RECORD) with
      | false =>
        rw [show scanSlots pfx (a :: rest) seqs = scanSlots pfx rest seqs by
          simp [scanSlots, hb1, hb2]] at h
        obtain ⟨r, hm, hr⟩ := ih seqs rid h
        exact ⟨r, List.mem_cons_of_mem _ hm, hr⟩
      | true =>
        cases hb3 : (a.target == LOCALHOST) with
        | true =>
          rw [show scanSlots pfx (a :: rest) seqs = (some a.id, seqs) by
            simp [scanSlots, hb1, hb2, hb3]] at h
          simp at h
          exact ⟨a, by simp, h⟩
        | false =>
          cases hext : extract_number a.name with
          | some n =>
            rw [show scanSlots pfx (a :: rest) seqs = scanSlots pfx rest (seqs ++ [n]) by
              simp [scanSlots, hb1, hb2, hb3, hext]] at h
            obtain ⟨r, hm, hr⟩ := ih (seqs ++ [n]) rid h
            exact ⟨r, List.mem_cons_of_mem _ hm, hr⟩
          | none =>
            rw [show scanSlots pfx (a :: rest) seqs = scanSlots pfx rest seqs by
              simp [scanSlots, hb1, hb2, hb3, hext]] at h
            obtain ⟨r, hm, hr⟩ := ih seqs rid h
            exact ⟨r, List.mem_cons_of_mem _ hm, hr⟩

/-- Helper: after the DNS phase, some record carries the bound slot's id and
the new target. -/
theorem upRecords_slot (records : List DomainRecord) (pfx ip : String) (newRecId : Nat) :
    ∃ r1 ∈ upRecords records pfx ip newRecId,
      r1.target = ip ∧ r1.id = upSlotId records pfx newRecId := by
  unfold upRecords upSlotId dnsReconcile
  rcases hsc : scanSlots pfx records [] with ⟨c, s⟩
  cases c with
  | some rid =>
    obtain ⟨r, hm, hid⟩ := scanSlots_mem pfx records [] rid (by rw [hsc])
    show ∃ r1 ∈ updateTarget records rid ip, r1.target = ip ∧ r1.id = rid
    refine ⟨{ r with target := ip }, ?_, rfl, hid⟩
    unfold updateTarget
    have hmm := List.mem_map_of_mem
      (fun r2 => if r2.id = rid then { r2 with target := ip } else r2) hm
    simpa [hid] using hmm
  | none =>
    exact ⟨_, List.mem_append_right _ (List.mem_singleton_self _), rfl, rfl⟩

/-- Helper: the scale-down map sends the fresh target to the bound slot's id
when only that slot carries it. -/
theorem buildTargetMap_slot (records1 : List DomainRecord) (ip : String) (sid : Nat)
    (hex : ∃ r1 ∈ records1, r1.target = ip ∧ r1.id = sid)
    (hslot : records1.all (fun r => r.target != ip || r.id == sid) = true) :
    buildTargetMap records1 ip = some sid := by
  rw [buildTargetMap_eq]
  unfold lastTargetMatch
  obtain ⟨r1, hm, ht, hid⟩ := hex
  cases hf : records1.reverse.find? (fun r => r.target == ip) with
  | none =>
    rw [List.find?_eq_none] at hf
    exact absurd (by simp [ht]) (hf r1 (List.mem_reverse.mpr hm))
  | some r2 =>
    have hp := List.find?_some hf
    have hm2 : r2 ∈ records1 := List.mem_reverse.mp (List.mem_of_find?_eq_some hf)
    have hall := List.all_eq_true.mp hslot r2 hm2
    simp at hp
    simp [hp] at hall
    simp [hall]

/-- Helper: appending a fresh-id instance and filtering it away restores the list. -/
theorem filter_ne_append (l : List LinodeInstance) (x : LinodeInstance)
    (h : l.all (fun i => i.id != x.id) = true) :
    (l ++ [x]).filter (fun i => i.id != x.id) = l := by
  rw [List.filter_append]
  rw [List.filter_eq_self.mpr (fun a ha => List.all_eq_true.mp h a ha)]
  simp [List.filter]

/-- Helper: repointing a present slot id makes every record bearing that id
carry the down sentinel, and keeps such a record present. -/
theorem updateTarget_down (records1 : List DomainRecord) (sid : Nat)
    (hex : ∃ r1 ∈ records1, r1.id = sid) :
    ((updateTarget records1 sid LOCALHOST).filter (fun r => r.id == sid)).all
        (fun r => r.target == LOCALHOST) = true
    ∧ (updateTarget records1 sid LOCALHOST).any (fun r => r.id == sid) = true := by
  constructor
  · rw [List.all_eq_true]
    intro r hrf
    rw [List.mem_filter] at hrf
    obtain ⟨hmem, hid⟩ := hrf
    unfold updateTarget at hmem
    obtain ⟨r0, hr0, heq⟩ := List.mem_map.mp hmem
    by_cases h0 : r0.id = sid
    · rw [if_pos h0] at heq
      rw [← heq]
      simp
    · rw [if_neg h0] at heq
      rw [← heq] at hid
      simp at hid
      exact absurd hid h0
  · rw [List.any_eq_true]
    obtain ⟨r1, hm, hid⟩ := hex
    refine ⟨{ r1 with target := LOCALHOST }, ?_, by simp [hid]⟩
    unfold updateTarget
    have hmm := List.mem_map_of_mem
      (fun r2 => if r2.id = sid then { r2 with target := LOCALHOST } else r2) hm
    simpa [hid] using hmm

/-- C4 amended: under well-formedness of the state and the provider responses
(successful address scan; a first configuration and a first public address;
the new instance tagged into the group with a fresh id; no pre-existing group
instance matching any post-scale-up record; the new address carried only by
the bound slot), a scale-up followed immediately by a scale-down on the same
tag and region restores the instance listing exactly — hence the group
inventory size — and returns the DNS slot claimed or created by the scale-up
to the down sentinel state. -/
theorem C4_round_trip (w : World) (code tag : String) (o : UpOracle)
    (cidrs : List Nat) (cfg0 : Configuration) (ip : String)
    (hc : collectCidrs tag w.configs (get_instances_by_tag w.instances [tag, code]) = Except.ok cidrs)
    (h0 : o.newConfigs[0]? = some cfg0)
    (hip : o.newInst.ipv4[0]? = some ip)
    (htag : ([tag, code].all (fun t => o.newInst.tags.contains t)) = true)
    (hfresh : (w.instances.all (fun i => i.id != o.newInst.id)) = true)
    (hnoearly : ((get_instances_by_tag w.instances [tag, code]).all
        (fun inst => match inst.ipv4[0]? with
          | some ip2 =>
            (buildTargetMap (upRecords w.records (tag ++ "-" ++ code) ip o.newRecId) ip2).isNone
          | none => false)) = true)
    (hslot : ((upRecords w.records (tag ++ "-" ++ code) ip o.newRecId).all
        (fun r => r.target != ip
          || r.id == upSlotId w.records (tag ++ "-" ++ code) o.newRecId)) = true) :
    (roundTrip w code tag o).map (fun w2 => w2.instances) = Except.ok w.instances
    ∧ (roundTrip w code tag o).map (fun w2 =>
        ((w2.records.filter
            (fun r => r.id == upSlotId w.records (tag ++ "-" ++ code) o.newRecId)).all
              (fun r => r.target == LOCALHOST)
          && w2.records.any
              (fun r => r.id == upSlotId w.records (tag ++ "-" ++ code) o.newRecId)))
      = Except.ok true := by
  obtain ⟨w1, he, hi, hr, hcf⟩ := scale_up_one_ok w code tag o cidrs cfg0 ip hc h0 hip
  have hg1 : get_instances_by_tag w1.instances [tag, code]
      = get_instances_by_tag w.instances [tag, code] ++ [o.newInst] := by
    rw [hi]
    unfold get_instances_by_tag
    rw [List.filter_append]
    rw [show ([o.newInst].filter (fun inst => [tag, code].all (fun t => inst.tags.contains t)))
        = [o.newInst] by
      have h2 := htag
      simp at h2
      simp [List.filter, h2.1, h2.2]]
  have hamap : buildTargetMap w1.records ip
      = some (upSlotId w.records (tag ++ "-" ++ code) o.newRecId) := by
    rw [hr]
    exact buildTargetMap_slot _ ip _
      (upRecords_slot w.records (tag ++ "-" ++ code) ip o.newRecId) hslot
  have hcond : (get_instances_by_tag w.instances [tag, code]).all
      (fun inst => match inst.ipv4[0]? with
        | some ip2 => (buildTargetMap w1.records ip2).isNone
        | none => false) = true := by
    rw [hr]
    exact hnoearly
  have hfm : findMatch (buildTargetMap w1.records) (get_instances_by_tag w1.instances [tag, code])
      = Except.ok (some (upSlotId w.records (tag ++ "-" ++ code) o.newRecId, o.newInst.id)) := by
    rw [hg1]
    rw [findMatch_skip (buildTargetMap w1.records)
      (get_instances_by_tag w.instances [tag, code]) [o.newInst] hcond]
    simp [findMatch, hip, hamap]
  have hrt : roundTrip w code tag o = Except.ok
      { w1 with
        records := updateTarget w1.records
          (upSlotId w.records (tag ++ "-" ++ code) o.newRecId) LOCALHOST,
        instances := w1.instances.filter (fun i => i.id != o.newInst.id) } := by
    unfold roundTrip
    rw [he]
    simp only [Except.bind]
    simp only [scale_down_one, hfm]
  constructor
  · rw [hrt]
    show Except.ok (w1.instances.filter (fun i => i.id != o.newInst.id)) = Except.ok w.instances
    rw [hi]
    rw [filter_ne_append w.instances o.newInst hfresh]
  · rw [hrt]
    show Except.ok
        (((updateTarget w1.records
              (upSlotId w.records (tag ++ "-" ++ code) o.newRecId) LOCALHOST).filter
            (fun r => r.id == upSlotId w.records (tag ++ "-" ++ code) o.newRecId)).all
              (fun r => r.target == LOCALHOST)
          && (updateTarget w1.records
              (upSlotId w.records (tag ++ "-" ++ code) o.newRecId) LOCALHOST).any
              (fun r => r.id == upSlotId w.records (tag ++ "-" ++ code) o.newRecId))
      = Except.ok true
    obtain ⟨r1, hm, ht1, hid⟩ := upRecords_slot w.records (tag ++ "-" ++ code) ip o.newRecId
    have hud := updateTarget_down (upRecords w.records (tag ++ "-" ++ code) ip o.newRecId)
      (upSlotId w.records (tag ++ "-" ++ code) o.newRecId) ⟨r1, hm, hid⟩
    rw [hr, hud.1, hud.2]
    rfl

/-- C4 counterexample: with a live instance already bound to slot 1, scale-up
then scale-down repoints slot 1 — the earlier instance's slot — and leaves the
scale-up's own slot (record 2) live, so the slot claimed or created by the
scale-up is not returned to the down state. -/
theorem C4_round_trip_cex :
    (roundTrip c4World "us-iad" "web" c4Oracle).map (fun w2 =>
        (w2.records.filter
            (fun r => r.id == upSlotId c4World.records "web-us-iad" c4Oracle.newRecId)).all
          (fun r => r.target == LOCALHOST))
      = Except.ok false
    ∧ (roundTrip c4World "us-iad" "web" c4Oracle).map
        (fun w2 => w2.records.map (fun r => (r.id, r.target)))
      = Except.ok [(1, LOCALHOST), (2, "2.2.2.2")] :=
  ⟨rfl, rfl⟩

/-- C4 witness: on the empty fleet with one vacated slot, the round trip
restores the empty listing and leaves the claimed slot back at the down
sentinel. -/
theorem C4_round_trip_witness :
    (collectCidrs "web" c4wWorld.configs
        (get_instances_by_tag c4wWorld.instances ["web", "us-iad"]) = Except.ok []
      ∧ c4wOracle.newConfigs[0]? = some { id := 20, interfaces := [] }
      ∧ c4wOracle.newInst.ipv4[0]? = some "3.3.3.3"
      ∧ (["web", "us-iad"].all (fun t => c4wOracle.newInst.tags.contains t)) = true
      ∧ (c4wWorld.instances.all (fun i => i.id != c4wOracle.newInst.id)) = true
      ∧ ((get_instances_by_tag c4wWorld.instances ["web", "us-iad"]).all
          (fun inst => match inst.ipv4[0]? with
            | some ip2 =>
              (buildTargetMap (upRecords c4wWorld.records ("web" ++ "-" ++ "us-iad")
                "3.3.3.3" c4wOracle.newRecId) ip2).isNone
            | none => false)) = true
      ∧ ((upRecords c4wWorld.records ("web" ++ "-" ++ "us-iad") "3.3.3.3" c4wOracle.newRecId).all
          (fun r => r.target != "3.3.3.3"
            || r.id == upSlotId c4wWorld.records ("web" ++ "-" ++ "us-iad") c4wOracle.newRecId)) = true)
    ∧ ((roundTrip c4wWorld "us-iad" "web" c4wOracle).map (fun w2 => w2.instances)
        = Except.ok c4wWorld.instances
      ∧ (roundTrip c4wWorld "us-iad" "web" c4wOracle).map (fun w2 =>
          ((w2.records.filter
              (fun r => r.id == upSlotId c4wWorld.records ("web" ++ "-" ++ "us-iad")
                c4wOracle.newRecId)).all
                (fun r => r.target == LOCALHOST)
            && w2.records.any
                (fun r => r.id == upSlotId c4wWorld.records ("web" ++ "-" ++ "us-iad")
                  c4wOracle.newRecId)))
        = Except.ok true) :=
  ⟨⟨rfl, rfl, rfl, rfl, rfl, rfl, rfl⟩,
   C4_round_trip c4wWorld "us-iad" "web" c4wOracle [] { id := 20, interfaces := [] } "3.3.3.3"
     rfl rfl rfl rfl rfl rfl rfl⟩
